import Mathlib

/-!
Verification development for the candle-aggregation and strategy-level engine
of `src/app.py` (single-file Python backend).  The pure computational core of
each function named by the claims is embedded below; HTTP fetches are replaced
by explicit candle-list parameters and `datetime.now()` by an explicit `today`
parameter.  Python floats are modelled by exact rationals (`ℚ`) and Python's
`round(x, 2)` by exact round-half-to-even at two decimals.
-/

namespace App

/-- Round-half-to-even on rationals, modelling Python's `round` to 0 digits. -/
def roundHalfEven (q : ℚ) : ℤ :=
  let f := ⌊q⌋
  let r := q - (f : ℚ)
  if r < 1/2 then f
  else if 1/2 < r then f + 1
  else if f % 2 = 0 then f else f + 1

/-- Model of Python's `round(x, 2)`: round-half-to-even at two decimal places. -/
def round2 (q : ℚ) : ℚ :=
  (roundHalfEven (q * 100) : ℚ) / 100

/-- A civil calendar date, as produced by `datetime.date()`. -/
structure Date where
  year : Int
  month : Nat
  day : Nat
deriving DecidableEq, Repr

/-- Days since the Unix epoch (1970-01-01) of a civil date (the standard
`days_from_civil` algorithm used by `datetime`'s ordinal arithmetic). -/
def Date.toDays (d : Date) : Int :=
  let y : Int := if d.month ≤ 2 then d.year - 1 else d.year
  let mp : Int := if d.month ≤ 2 then (d.month : Int) + 12 else (d.month : Int)
  365 * y + Int.fdiv y 4 - Int.fdiv y 100 + Int.fdiv y 400
    + Int.fdiv (153 * (mp - 3) + 2) 5 + (d.day : Int) - 1 - 719468

/-- Civil date from days since the Unix epoch (the standard `civil_from_days`
algorithm, inverse of `Date.toDays` on valid dates). -/
def Date.ofDays (z : Int) : Date :=
  let z' := z + 719468
  let era := Int.fdiv z' 146097
  let doe := (z' - era * 146097).toNat
  let yoe := (doe - doe / 1460 + doe / 36524 - doe / 146096) / 365
  let y : Int := (yoe : Int) + era * 400
  let doy := doe - (365 * yoe + yoe / 4 - yoe / 100)
  let mp := (5 * doy + 2) / 153
  let d := doy - (153 * mp + 2) / 5 + 1
  let m := if mp < 10 then mp + 3 else mp - 9
  { year := y + (if m ≤ 2 then 1 else 0), month := m, day := d }

/-- A candle timestamp as received from the vendor API: either an epoch value
in milliseconds (`int`/`float` in Python) or an ISO-8601-like string. -/
inductive Timestamp where
  | num (ms : ℚ)
  | str (s : String)
deriving DecidableEq, Repr

/-- A candle `[timestamp, open, high, low, close, volume, oi]`.  Python-side
short or null entries are modelled by `none` fields (`c[k] if len(c) > k else
None`); the timestamp slot `c[0]` is always present. -/
structure Candle where
  ts : Timestamp
  op : Option ℚ
  hi : Option ℚ
  lo : Option ℚ
  cl : Option ℚ
  vol : Option ℚ
  oi : Option ℚ
deriving DecidableEq, Repr

/-- Python truthiness of an optional number: `None` and `0` are falsy. -/
def isTruthy : Option ℚ → Bool
  | none => false
  | some v => v != 0

instance : Std.Antisymm ((· : ℚ) ≤ ·) := ⟨@fun _ _ h h' => le_antisymm h h'⟩

/-- A civil wall-clock datetime as produced by `datetime.fromisoformat`.
Fractional seconds are validated but dropped: a sub-second part can never
move the derived calendar date across midnight after the +5:30 shift. -/
structure CivilTime where
  date : Date
  hour : Nat
  minute : Nat
  second : Nat
deriving DecidableEq, Repr

/-- Seconds since the Unix epoch of a naive civil datetime. -/
def CivilTime.toSeconds (t : CivilTime) : Int :=
  t.date.toDays * 86400 + t.hour * 3600 + t.minute * 60 + t.second

/-- The calendar date of a naive civil datetime after adding `s` seconds
(models `dt + timedelta(...)` followed by `.date()`). -/
def CivilTime.dateAfterAdd (t : CivilTime) (s : Int) : Date :=
  Date.ofDays (Int.fdiv (t.toSeconds + s) 86400)

/-- Numeric value of a decimal digit character. -/
def digitVal (c : Char) : Nat := c.toNat - '0'.toNat

/-- Parse exactly `n` decimal digits (most significant first) onto `acc`. -/
def parseNatFix : Nat → Nat → List Char → Option (Nat × List Char)
  | 0, acc, cs => some (acc, cs)
  | n + 1, acc, c :: cs =>
      if c.isDigit then parseNatFix n (acc * 10 + digitVal c) cs else none
  | _ + 1, _, [] => none

/-- Gregorian leap-year test. -/
def isLeap (y : Int) : Bool := (y % 4 == 0 && y % 100 != 0) || y % 400 == 0

/-- Number of days in a month, as validated by `datetime`. -/
def daysInMonth (y : Int) (m : Nat) : Nat :=
  if m = 2 then (if isLeap y then 29 else 28)
  else if m = 4 ∨ m = 6 ∨ m = 9 ∨ m = 11 then 30
  else 31

/-- Drop a leading run of decimal digits. -/
def dropDigits : List Char → List Char
  | c :: cs => if c.isDigit then dropDigits cs else c :: cs
  | [] => []

/-- Parse the `HH[:MM[:SS[.fff...]]]` part of an ISO time.  Returns hour,
minute, second and the remaining characters. -/
def parseTimePart (cs : List Char) : Option (Nat × Nat × Nat × List Char) :=
  match parseNatFix 2 0 cs with
  | none => none
  | some (hh, cs1) =>
    match cs1 with
    | ':' :: cs2 =>
      match parseNatFix 2 0 cs2 with
      | none => none
      | some (mi, cs3) =>
        match cs3 with
        | ':' :: cs4 =>
          match parseNatFix 2 0 cs4 with
          | none => none
          | some (ss, cs5) =>
            match cs5 with
            | '.' :: c6 :: cs6 =>
                if c6.isDigit then some (hh, mi, ss, dropDigits cs6) else none
            | _ => some (hh, mi, ss, cs5)
        | _ => some (hh, mi, 0, cs3)
    | _ => some (hh, 0, 0, cs1)

/-- Parse an optional trailing `±HH:MM` UTC offset; the offset, when present,
must end the string.  Returns the signed offset in minutes. -/
def parseOffsetEnd (cs : List Char) : Option (Option Int) :=
  match cs with
  | [] => some none
  | sgn :: cs1 =>
    if sgn = '+' ∨ sgn = '-' then
      match parseNatFix 2 0 cs1 with
      | none => none
      | some (oh, cs2) =>
        match cs2 with
        | ':' :: cs3 =>
          match parseNatFix 2 0 cs3 with
          | some (om, []) =>
              if oh ≤ 23 ∧ om ≤ 59 then
                some (some ((if sgn = '-' then -1 else 1) * ((oh : Int) * 60 + om)))
              else none
          | _ => none
        | _ => none
    else none

/-- Model of `datetime.fromisoformat` on the grammar
`YYYY-MM-DD[<sep>HH[:MM[:SS[.fff...]]][±HH:MM]]` (the separator may be any
single character, as in CPython).  Returns the wall-clock civil time and the
explicit UTC offset in minutes, if any; out-of-range fields fail as CPython
raises `ValueError`. -/
def parseIso (cs : List Char) : Option (CivilTime × Option Int) :=
  match parseNatFix 4 0 cs with
  | none => none
  | some (y, cs1) =>
    match cs1 with
    | '-' :: cs2 =>
      match parseNatFix 2 0 cs2 with
      | none => none
      | some (mo, cs3) =>
        match cs3 with
        | '-' :: cs4 =>
          match parseNatFix 2 0 cs4 with
          | none => none
          | some (dy, cs5) =>
            if 1 ≤ y ∧ 1 ≤ mo ∧ mo ≤ 12 ∧ 1 ≤ dy ∧ dy ≤ daysInMonth (y : Int) mo then
              match cs5 with
              | [] => some (⟨⟨(y : Int), mo, dy⟩, 0, 0, 0⟩, none)
              | _sep :: cs6 =>
                match parseTimePart cs6 with
                | none => none
                | some (hh, mi, ss, cs7) =>
                  if hh ≤ 23 ∧ mi ≤ 59 ∧ ss ≤ 59 then
                    match parseOffsetEnd cs7 with
                    | none => none
                    | some off => some (⟨⟨(y : Int), mo, dy⟩, hh, mi, ss⟩, off)
                  else none
            else none
        | _ => none
    | _ => none

/-- Python `c in s` for a single character. -/
def containsChar (c : Char) (cs : List Char) : Bool := cs.any (· == c)

/-- Python substring containment `pat in s`. -/
def containsSub (pat : List Char) : List Char → Bool
  | [] => pat.isEmpty
  | c :: rest => pat.isPrefixOf (c :: rest) || containsSub pat rest

/-- Fuel-driven worker for `replaceAll`; the fuel (initially the string
length) strictly bounds the remaining suffix length, so the first case is
unreachable. -/
def replaceAllAux (pat rep : List Char) : Nat → List Char → List Char
  | 0, cs => cs
  | _ + 1, [] => []
  | fuel + 1, c :: rest =>
    if pat ≠ [] ∧ pat.isPrefixOf (c :: rest) then
      rep ++ replaceAllAux pat rep fuel ((c :: rest).drop pat.length)
    else
      c :: replaceAllAux pat rep fuel rest

/-- Python `s.replace(pat, rep)`: replace all non-overlapping occurrences,
scanning left to right (callers never pass an empty pattern). -/
def replaceAll (pat rep cs : List Char) : List Char :=
  replaceAllAux pat rep cs.length cs

/-- The character list of a string literal. -/
def chars (s : String) : List Char := s.toList

/-- Trading-day grouping key of one candle timestamp, transcribed from
`get_previous_day_high_low` (src/app.py lines 693-717):
numeric timestamps are epoch milliseconds UTC shifted by +5:30; a string
containing both a `'+'` and the substring `"05:30"` has every literal
`"+05:30"` removed and the wall time of the parse used directly; otherwise a
string containing `'Z'` or `"+00:00"` has every `'Z'` replaced by `"+00:00"`,
is parsed, and its wall time is shifted by +5:30 (`dt.replace(tzinfo=None) +
ist_offset`); any other string is parsed naively with no shift.  `none` means
the parse raised and the candle is skipped by the grouping loop. -/
def pyDateKey : Timestamp → Option Date
  | .num ms => some (Date.ofDays ⌊(ms / 1000 + 19800) / 86400⌋)
  | .str s =>
    let cs := chars s
    if containsChar '+' cs && containsSub (chars "05:30") cs then
      (parseIso (replaceAll (chars "+05:30") [] cs)).map (fun p => p.1.date)
    else if containsChar 'Z' cs || containsSub (chars "+00:00") cs then
      (parseIso (replaceAll [ 'Z'] (chars "+00:00") cs)).map
        (fun p => p.1.dateAfterAdd 19800)
    else
      (parseIso cs).map (fun p => p.1.date)

/-- Grouping key exactly as claim C3 words it (precedence (a)-(d)):
(a) numeric = epoch ms UTC shifted +5:30; (b) a string containing an explicit
`"+05:30"` offset has the offset stripped and its local wall time used
directly; (c) a string ending in `'Z'` or containing `"+00:00"` is parsed as
UTC and shifted by +5:30; (d) any other string is parsed as naive local time
with no shift. -/
def specDateKey : Timestamp → Option Date
  | .num ms => some (Date.ofDays ⌊(ms / 1000 + 19800) / 86400⌋)
  | .str s =>
    let cs := chars s
    if containsSub (chars "+05:30") cs then
      (parseIso (replaceAll (chars "+05:30") [] cs)).map (fun p => p.1.date)
    else if (cs.getLast? == some 'Z') || containsSub (chars "+00:00") cs then
      (parseIso (replaceAll [ 'Z'] (chars "+00:00") cs)).map
        (fun p => p.1.dateAfterAdd 19800)
    else
      (parseIso cs).map (fun p => p.1.date)

/-- Python string `<`: strict lexicographic comparison by code point. -/
def charListLt : List Char → List Char → Bool
  | [], [] => false
  | [], _ :: _ => true
  | _ :: _, [] => false
  | a :: as, b :: bs => if a < b then true else if b < a then false else charListLt as bs

/-- Python `sorted` key comparison on raw timestamps (`x[0]`): numbers by
value, strings lexicographically by code point.  A batch mixing the two kinds
makes Python's `sorted` raise `TypeError` (handled separately via `tsMixed`);
the cross-kind cases of this relation are therefore never exercised and are
totalized arbitrarily. -/
def tsLeB : Timestamp → Timestamp → Bool
  | .num a, .num b => a ≤ b
  | .str a, .str b => !(charListLt (chars b) (chars a))
  | .num _, .str _ => true
  | .str _, .num _ => false

/-- Candle ordering by raw timestamp, as used by `sorted(candles, key=lambda
x: x[0])`. -/
def tsle (a b : Candle) : Prop := tsLeB a.ts b.ts = true

instance : DecidableRel tsle := fun a b => by unfold tsle; infer_instance

/-- `sorted(candles, key=lambda x: x[0] ...)` (stable, as is insertion sort
with a non-strict relation). -/
def sortByTs (candles : List Candle) : List Candle := List.insertionSort tsle candles

/-- Whether the timestamp is the numeric kind. -/
def tsIsNum : Timestamp → Bool
  | .num _ => true
  | .str _ => false

/-- A batch whose timestamps mix numbers and strings makes `sorted` raise
`TypeError`, which the enclosing `except` turns into the all-null result. -/
def tsMixed (candles : List Candle) : Bool :=
  (candles.any fun c => tsIsNum c.ts) && (candles.any fun c => !tsIsNum c.ts)

/-- Aggregation factor of a target interval (src/app.py lines 584-596);
`none` means "no aggregation needed" and the input is passed through. -/
def intervalFactor (target : String) : Option Nat :=
  if target = "5minute" then some 5
  else if target = "15minute" then some 15
  else if target = "30minute" then some 30
  else if target = "60minute" then some 60
  else if target = "75minute" then some 75
  else none

/-- Fuel-driven worker for `chunkList`; the fuel (initially the list length)
bounds the remaining length, so the fuel-exhaustion case is unreachable. -/
def chunkListAux (f : Nat) : Nat → List α → List (List α)
  | 0, _ => []
  | _ + 1, [] => []
  | fuel + 1, x :: xs =>
    if f = 0 then []
    else (x :: xs).take f :: chunkListAux f fuel ((x :: xs).drop f)

/-- The consecutive positional windows `candles[i:i+factor]` consumed by the
`while` loop of `aggregate_candles`; the `f = 0` guard only totalizes the
definition (the source only calls it with factors 5..75). -/
def chunkList (f : Nat) (l : List α) : List (List α) :=
  chunkListAux f l.length l

/-- Fold one window of candles into one aggregated record (body of the
`while` loop in `aggregate_candles`, src/app.py lines 601-625): timestamp and
open from the first candle, close and open interest from the last, high/low as
max/min over the non-missing values (`default=None`), volume as the sum of
non-missing volumes.  The `[]` case is unreachable (`if not group: break`). -/
def aggGroup : List Candle → Candle
  | [] => ⟨Timestamp.num 0, none, none, none, none, some 0, none⟩
  | first :: rest =>
    { ts := first.ts
      op := first.op
      hi := ((first :: rest).filterMap Candle.hi).max?
      lo := ((first :: rest).filterMap Candle.lo).min?
      cl := (rest.getLastD first).cl
      vol := some (((first :: rest).filterMap Candle.vol).sum)
      oi := (rest.getLastD first).oi }

/-- `aggregate_candles(candles, target_interval)` (src/app.py lines 571-627). -/
def aggregate_candles (candles : List Candle) (target_interval : String) : List Candle :=
  if candles = [] then []
  else
    match intervalFactor target_interval with
    | none => candles
    | some f => (chunkList f candles).map aggGroup

/-- The candle list stored under key `k` by the grouping loop
(`candles_by_date[date_key].append(candle)`, src/app.py lines 716-720):
exactly the candles whose timestamp parses to `k`, in input order; candles
whose timestamp fails to parse are skipped and appear in no group. -/
def groupByDate (candles : List Candle) (k : Date) : List Candle :=
  candles.filter fun c => pyDateKey c.ts = some k

/-- Descending order on dates (Python `sorted(dates, reverse=True)` compares
`date` objects chronologically). -/
def dge (a b : Date) : Prop := b.toDays ≤ a.toDays

instance : DecidableRel dge := fun a b => by unfold dge; infer_instance

instance : IsTotal Date dge := ⟨fun a b => by unfold dge; exact le_total _ _⟩

instance : IsTrans Date dge := ⟨fun _ _ _ hab hbc => le_trans hbc hab⟩

/-- `sorted(candles_by_date.keys(), reverse=True)`. -/
def sortDatesDesc (dates : List Date) : List Date := List.insertionSort dge dates

/-- Previous-trading-day selection (src/app.py lines 729-762): first date (in
descending order) strictly before `today`; on failure, the most recent date if
it is before `today` (a branch that can never fire, kept from the source),
else the second most recent when one exists, else nothing. -/
def selectPreviousDay (dates : List Date) (today : Date) : Option Date :=
  let sorted_dates := sortDatesDesc dates
  match sorted_dates.find? (fun d => decide (d.toDays < today.toDays)) with
  | some d => some d
  | none =>
    match sorted_dates with
    | [] => none
    | d0 :: rest =>
      if d0.toDays < today.toDays then some d0
      else
        match rest with
        | [] => none
        | d1 :: _ => some d1

/-- The PL3 level triple returned by `get_previous_day_high_low`. -/
structure Pl3Result where
  pl3h : Option ℚ
  pl3l : Option ℚ
  pl3m : Option ℚ
deriving DecidableEq, Repr

/-- The all-null PL3 result. -/
def nullPl3 : Pl3Result := ⟨none, none, none⟩

/-- The candle sequence the day-grouping loop iterates over: the batch sorted
by raw timestamp, aggregated to 75-minute records when (and only when) the
requested interval is `"75minute"` (src/app.py lines 677-684). -/
def pl3Candles (candles : List Candle) (interval : String) : List Candle :=
  let candles_sorted := sortByTs candles
  if interval = "75minute" then aggregate_candles candles_sorted interval
  else candles_sorted

/-- The distinct trading-day keys of the grouped batch
(`candles_by_date.keys()`); `dedup` keeps one occurrence of each key, and only
the set matters since the keys are sorted before use. -/
def pl3Dates (candles : List Candle) (interval : String) : List Date :=
  ((pl3Candles candles interval).filterMap fun c => pyDateKey c.ts).dedup

/-- Positional 75-candle aggregation windows used by the PL3 computation:
`aggregate_candles` is applied to the whole sorted multi-day batch *before*
any grouping by trading day. -/
def pl3AggWindows (candles : List Candle) : List (List Candle) :=
  chunkList 75 (sortByTs candles)

/-- Pure core of `get_previous_day_high_low` (src/app.py lines 629-829): the
fetched batch and "today" are explicit parameters.  Branches in which Python
raises (mixed-kind timestamps under `sorted`, a `None` among the collected
highs/lows reaching `max`/`min`/arithmetic/formatting) are caught by the
enclosing `except` and yield the all-null result, as does an empty batch or a
failed previous-day selection. -/
def get_previous_day_high_low_core (candles : List Candle) (interval : String)
    (today : Date) : Pl3Result :=
  if candles = [] then nullPl3
  else if tsMixed candles then nullPl3
  else
    let cs := pl3Candles candles interval
    match selectPreviousDay (pl3Dates candles interval) today with
    | none => nullPl3
    | some d =>
      let sorted_day := sortByTs (groupByDate cs d)
      let last_3 := sorted_day.drop (sorted_day.length - 3)
      if last_3 = [] then nullPl3
      else if (last_3.all fun c => c.hi.isSome) && (last_3.all fun c => c.lo.isSome) then
        let pl3h := ((last_3.filterMap Candle.hi).max?).getD 0
        let pl3l := ((last_3.filterMap Candle.lo).min?).getD 0
        let pl3m := (pl3h + pl3l) / 2
        ⟨some (round2 pl3h), some (round2 pl3l), some (round2 pl3m)⟩
      else nullPl3

/-- Fixture: a candle of 2024-01-08 (IST) with no numeric fields, so that
list equalities over it are decidable without rational arithmetic. -/
def cJan8 : Candle :=
  ⟨Timestamp.str "2024-01-08T09:15:00+05:30", none, none, none, none, none, none⟩

/-- Fixture: a candle of 2024-01-09 (IST) with no numeric fields. -/
def cJan9 : Candle :=
  ⟨Timestamp.str "2024-01-09T09:15:00+05:30", none, none, none, none, none, none⟩

/-- The condition/signal/alert record returned by `calculate_m75_conditions`. -/
structure M75Result where
  pl3h_condition : Option String
  pl3m_condition : Option String
  pl3l_condition : Option String
  pl3h_signal : Option String
  pl3m_signal : Option String
  pl3l_signal : Option String
  pl3h_alert : Bool
  pl3m_alert : Bool
  pl3l_alert : Bool
deriving DecidableEq, Repr

/-- The all-null / all-false M75 record (src/app.py lines 845-855). -/
def nullM75 : M75Result := ⟨none, none, none, none, none, none, false, false, false⟩

/-- `calculate_m75_conditions(ltp, pl3h, pl3m, pl3l, previous_ltp)`
(src/app.py lines 831-940), transcribed branch by branch; note the guards are
Python truthiness tests (`if not ltp or ...`, `if previous_ltp:`). -/
def calculate_m75_conditions (ltp pl3h pl3m pl3l : Option ℚ)
    (previous_ltp : Option ℚ) : M75Result :=
  if !(isTruthy ltp) || !(isTruthy pl3h) || !(isTruthy pl3m) || !(isTruthy pl3l) then
    nullM75
  else
    let ltp_float := ltp.getD 0
    let pl3h_float := pl3h.getD 0
    let pl3m_float := pl3m.getD 0
    let pl3l_float := pl3l.getD 0
    let near_threshold : ℚ := 5 / 1000
    let hpart : Option String × Option String × Bool :=
      if pl3h_float < ltp_float then (some "bullish", some "B", false)
      else (none, none, decide (|ltp_float - pl3h_float| / pl3h_float ≤ near_threshold))
    let lpart : Option String × Option String × Bool :=
      if ltp_float < pl3l_float then (some "bearish", some "BO-S", false)
      else (none, none, decide (|ltp_float - pl3l_float| / pl3l_float ≤ near_threshold))
    let mcs : Option String × Option String :=
      if isTruthy previous_ltp then
        let prev_ltp_float := previous_ltp.getD 0
        if pl3m_float < prev_ltp_float ∧ ltp_float ≤ pl3m_float then
          (some "bearish_break", some "W")
        else if prev_ltp_float < pl3m_float ∧ pl3m_float ≤ ltp_float then
          (some "bullish_break", some "W")
        else if ltp_float < pl3m_float ∧ prev_ltp_float < pl3m_float then
          (some "below", some "W")
        else if pl3m_float < ltp_float ∧ pl3m_float < prev_ltp_float then
          (some "above", some "W")
        else (none, none)
      else
        (if ltp_float < pl3m_float then some "below"
         else if pl3m_float < ltp_float then some "above"
         else none,
         some "W")
    let m_alert := decide (|ltp_float - pl3m_float| / pl3m_float ≤ near_threshold)
    { pl3h_condition := hpart.1
      pl3m_condition := mcs.1
      pl3l_condition := lpart.1
      pl3h_signal := hpart.2.1
      pl3m_signal := mcs.2
      pl3l_signal := lpart.2.1
      pl3h_alert := hpart.2.2
      pl3m_alert := m_alert
      pl3l_alert := lpart.2.2 }

/-- The first-candle ("Box Strategy") level fields of the result dict of
`calculate_box_strategy_values` that derive from `fch`/`fcl`. -/
structure BoxLevels where
  fch : Option ℚ
  fcl : Option ℚ
  fcm : Option ℚ
  br_t : Option ℚ
  br_r : Option ℚ
  be_t : Option ℚ
  be_r : Option ℚ
deriving DecidableEq, Repr

/-- Pure core of `calculate_box_strategy_values` (src/app.py lines
1107-1144): the fetched first-candle high/low and the current price are
explicit parameters; `current_ltp` is received but unused by the formulas.
The guard is Python truthiness (`if result["fch"] and result["fcl"]`), and
every non-null numeric output is rounded to 2 decimals at the end. -/
def calculate_box_strategy_values_core (fch fcl : Option ℚ)
    (current_ltp : Option ℚ) : BoxLevels :=
  if isTruthy fch && isTruthy fcl then
    let fch_float := fch.getD 0
    let fcl_float := fcl.getD 0
    let fcm := (fch_float + fcl_float) / 2
    let dist_a := fch_float - fcl_float
    let br_t := fch_float + dist_a * 2
    let fib_range_bull := br_t - fcl_float
    let br_r := fcl_float + fib_range_bull * (75 / 100)
    let be_t := fcl_float - dist_a * 2
    let fib_range_bear := fch_float - be_t
    let be_r := fch_float - fib_range_bear * (75 / 100)
    { fch := some (round2 fch_float)
      fcl := some (round2 fcl_float)
      fcm := some (round2 fcm)
      br_t := some (round2 br_t)
      br_r := some (round2 br_r)
      be_t := some (round2 be_t)
      be_r := some (round2 be_r) }
  else
    { fch := fch.map round2
      fcl := fcl.map round2
      fcm := none, br_t := none, br_r := none, be_t := none, be_r := none }

/-! ### Theorems -/

theorem chunkListAux_fuel (f : Nat) :
    ∀ (fuel₁ fuel₂ : Nat) (l : List α), l.length ≤ fuel₁ → l.length ≤ fuel₂ →
      chunkListAux f fuel₁ l = chunkListAux f fuel₂ l := by
  intro fuel₁
  induction fuel₁ with
  | zero =>
    intro fuel₂ l h1 _
    rw [List.length_eq_zero.mp (Nat.le_zero.mp h1)]
    cases fuel₂ <;> rfl
  | succ n ih =>
    intro fuel₂ l h1 h2
    cases l with
    | nil => cases fuel₂ <;> rfl
    | cons x xs =>
      cases fuel₂ with
      | zero => simp at h2
      | succ m =>
        show (if f = 0 then [] else _) = (if f = 0 then [] else _)
        by_cases hf : f = 0
        · rw [if_pos hf, if_pos hf]
        · rw [if_neg hf, if_neg hf]
          have hd : ((x :: xs).drop f).length ≤ n := by
            simp only [List.length_drop, List.length_cons] at h1 ⊢
            omega
          have hd2 : ((x :: xs).drop f).length ≤ m := by
            simp only [List.length_drop, List.length_cons] at h2 ⊢
            omega
          rw [ih m _ hd hd2]

theorem chunkList_nil (f : Nat) : chunkList f ([] : List α) = [] := rfl

theorem chunkList_cons (f : Nat) (hf : f ≠ 0) (x : α) (xs : List α) :
    chunkList f (x :: xs) = (x :: xs).take f :: chunkList f ((x :: xs).drop f) := by
  show chunkListAux f (xs.length + 1) (x :: xs) = _
  rw [chunkListAux, if_neg hf]
  unfold chunkList
  rw [chunkListAux_fuel f xs.length ((x :: xs).drop f).length ((x :: xs).drop f)
    (by simp only [List.length_drop, List.length_cons]; omega) le_rfl]

theorem chunkList_induction (f : Nat) (hf : f ≠ 0) (P : List α → Prop)
    (hnil : P ([] : List α))
    (hcons : ∀ x xs, P ((x :: xs).drop f) → P (x :: xs)) : ∀ l, P l := by
  have main : ∀ n (l : List α), l.length ≤ n → P l := by
    intro n
    induction n with
    | zero =>
      intro l hl
      rw [List.length_eq_zero.mp (Nat.le_zero.mp hl)]
      exact hnil
    | succ n ih =>
      intro l hl
      cases l with
      | nil => exact hnil
      | cons x xs =>
        refine hcons x xs (ih _ ?_)
        simp only [List.length_drop, List.length_cons] at hl ⊢
        have := Nat.pos_of_ne_zero hf
        omega
  exact fun l => main l.length l le_rfl

theorem chunkList_length (f : Nat) (hf : f ≠ 0) (l : List α) :
    (chunkList f l).length = (l.length + f - 1) / f := by
  induction l using chunkList_induction f hf with
  | hnil =>
    rw [chunkList_nil]
    simp [Nat.div_eq_of_lt (Nat.sub_lt (Nat.pos_of_ne_zero hf) one_pos)]
  | hcons x xs ih =>
    rw [chunkList_cons f hf x xs]
    simp only [List.length_cons, List.length_take, List.length_drop] at ih ⊢
    rw [ih]
    have hfpos : 0 < f := Nat.pos_of_ne_zero hf
    have h1 : xs.length + 1 + f - 1 = xs.length + f := by omega
    rw [h1, Nat.add_div_right _ hfpos]
    rcases le_or_lt f (xs.length + 1) with hle | hlt
    · have h2 : xs.length + 1 - f + f - 1 = xs.length := by omega
      rw [h2]
    · have h2 : xs.length + 1 - f = 0 := by omega
      rw [h2]
      rw [Nat.div_eq_of_lt (by omega), Nat.div_eq_of_lt (by omega)]

theorem chunkList_join (f : Nat) (hf : f ≠ 0) (l : List α) :
    (chunkList f l).flatten = l := by
  induction l using chunkList_induction f hf with
  | hnil => rw [chunkList_nil]; rfl
  | hcons x xs ih =>
    rw [chunkList_cons f hf x xs]
    simp only [List.flatten_cons, ih, List.take_append_drop]

theorem chunkList_windows_shape (f : Nat) (hf : f ≠ 0) (l : List α) :
    ∀ g ∈ chunkList f l, g ≠ [] ∧ g.length ≤ f := by
  induction l using chunkList_induction f hf with
  | hnil => rw [chunkList_nil]; intro g hg; exact absurd hg (List.not_mem_nil g)
  | hcons x xs ih =>
    rw [chunkList_cons f hf x xs]
    intro g hg
    rcases List.mem_cons.mp hg with hg | hg
    · subst hg
      constructor
      · simp [List.take_eq_nil_iff, hf]
      · simp [List.length_take]
    · exact ih g hg

theorem chunkList_eq_windows (f : Nat) (hf : f ≠ 0) (l : List α) :
    chunkList f l
      = (List.range ((l.length + f - 1) / f)).map (fun k => (l.drop (f * k)).take f) := by
  induction l using chunkList_induction f hf with
  | hnil =>
    rw [chunkList_nil]
    simp [Nat.div_eq_of_lt (Nat.sub_lt (Nat.pos_of_ne_zero hf) one_pos)]
  | hcons x xs ih =>
    rw [chunkList_cons f hf x xs, ih]
    have hfpos : 0 < f := Nat.pos_of_ne_zero hf
    have h1 : (x :: xs).length + f - 1 = xs.length + f := by
      simp only [List.length_cons]
      omega
    have h3 : ((x :: xs).drop f).length + f - 1 = xs.length + 1 - f + f - 1 := by
      simp [List.length_drop]
    have h4 : (xs.length + 1 - f + f - 1) / f = xs.length / f := by
      rcases le_or_lt f (xs.length + 1) with hle | hlt
      · have h5 : xs.length + 1 - f + f - 1 = xs.length := by omega
        rw [h5]
      · have ha : xs.length + 1 - f = 0 := by omega
        rw [ha]
        rw [Nat.div_eq_of_lt (by omega), Nat.div_eq_of_lt (by omega)]
    rw [h1, Nat.add_div_right _ hfpos, h3, h4, List.range_succ_eq_map, List.map_cons,
      List.map_map]
    refine List.cons_eq_cons.mpr ⟨by norm_num, ?_⟩
    apply List.map_congr_left
    intro k _
    simp only [Function.comp_apply, List.drop_drop]
    congr 2
    rw [Nat.succ_eq_add_one, Nat.mul_add, Nat.mul_one, Nat.add_comm]

theorem chunkList_getLast (f : Nat) (hf : f ≠ 0) (l : List α) (hl : l ≠ []) :
    ∃ g, (chunkList f l).getLast? = some g ∧
      g.length = if l.length % f = 0 then f else l.length % f := by
  induction l using chunkList_induction f hf with
  | hnil => exact absurd rfl hl
  | hcons x xs ih =>
    rw [chunkList_cons f hf x xs]
    by_cases hd : (x :: xs).drop f = []
    · rw [hd, chunkList_nil]
      refine ⟨(x :: xs).take f, rfl, ?_⟩
      have hn : xs.length + 1 ≤ f := by
        have := List.drop_eq_nil_iff.mp hd
        simp only [List.length_cons] at this
        omega
      have htake : ((x :: xs).take f).length = xs.length + 1 := by
        simp only [List.length_take, List.length_cons]
        omega
      rw [htake]
      rcases lt_or_ge (xs.length + 1) f with hlt | hge
      · have hmod : (x :: xs).length % f = xs.length + 1 := by
          simp only [List.length_cons]
          exact Nat.mod_eq_of_lt hlt
        rw [hmod, if_neg (by omega)]
      · have heq : (x :: xs).length = f := by
          simp only [List.length_cons]
          omega
        rw [heq, if_pos (Nat.mod_self f)]
        simp only [List.length_cons] at heq
        omega
    · obtain ⟨g, hg, hlen⟩ := ih hd
      have hne : chunkList f ((x :: xs).drop f) ≠ [] := by
        intro hcon
        rw [hcon] at hg
        exact Option.noConfusion hg
      have hflt : f < (x :: xs).length := by
        rcases lt_or_ge f (x :: xs).length with h | h
        · exact h
        · exact absurd (List.drop_eq_nil_iff.mpr h) hd
      refine ⟨g, ?_, ?_⟩
      · obtain ⟨c, cs, hcc⟩ := List.exists_cons_of_ne_nil hne
        rw [hcc, List.getLast?_cons_cons, ← hcc, hg]
      · rw [hlen]
        have hmod : (x :: xs).length % f = ((x :: xs).drop f).length % f := by
          rw [List.length_drop]
          exact Nat.mod_eq_sub_mod (le_of_lt hflt)
        rw [hmod]

theorem max?_rat_eq_some_iff (l : List ℚ) (v : ℚ) :
    l.max? = some v ↔ v ∈ l ∧ ∀ b ∈ l, b ≤ v :=
  List.max?_eq_some_iff (fun a => le_refl a) (fun a b => max_choice a b)
    (fun _ _ _ => max_le_iff)

theorem min?_rat_eq_some_iff (l : List ℚ) (v : ℚ) :
    l.min? = some v ↔ v ∈ l ∧ ∀ b ∈ l, v ≤ b :=
  List.min?_eq_some_iff (fun a => le_refl a) (fun a b => min_choice a b)
    (fun _ _ _ => le_min_iff)

theorem intervalFactor_mem (target : String) (f : Nat)
    (h : intervalFactor target = some f) : f ∈ [5, 15, 30, 60, 75] := by
  unfold intervalFactor at h
  split_ifs at h <;> simp_all

theorem aggregate_candles_eq_chunks (candles : List Candle) (target : String) (f : Nat)
    (hf : intervalFactor target = some f) :
    aggregate_candles candles target = (chunkList f candles).map aggGroup := by
  by_cases hc : candles = []
  · subst hc
    simp [aggregate_candles, chunkList_nil]
  · simp [aggregate_candles, hc, hf]

/-- C2: for a supported granularity with factor `f ∈ {5,15,30,60,75}`,
`aggregate_candles` emits one record per consecutive positional window of `f`
candles (`ceil(n/f)` records, final window of size `n mod f`, or `f` when `f`
divides `n`); each record takes timestamp/open from the window's first candle,
close/openInterest from its last, high/low as the max/min of the non-missing
values (missing when none), and volume as the sum of the non-missing volumes
(`0` when none); an empty input gives an empty output and an unsupported
granularity returns the input unchanged. -/
theorem c2_aggregate_spec (candles : List Candle) (target : String) :
    (∀ f, intervalFactor target = some f →
      f ∈ [5, 15, 30, 60, 75] ∧
      (aggregate_candles candles target).length = (candles.length + f - 1) / f ∧
      aggregate_candles candles target
        = (List.range ((candles.length + f - 1) / f)).map
            (fun k => aggGroup ((candles.drop (f * k)).take f)) ∧
      (candles ≠ [] → ∃ g, (chunkList f candles).getLast? = some g ∧
        g.length = (if candles.length % f = 0 then f else candles.length % f))) ∧
    (intervalFactor target = none → aggregate_candles candles target = candles) ∧
    aggregate_candles [] target = [] ∧
    (∀ (c : Candle) (cs : List Candle),
      (aggGroup (c :: cs)).ts = c.ts ∧
      (aggGroup (c :: cs)).op = c.op ∧
      (∃ lastc, (c :: cs).getLast? = some lastc ∧
        (aggGroup (c :: cs)).cl = lastc.cl ∧ (aggGroup (c :: cs)).oi = lastc.oi) ∧
      ((aggGroup (c :: cs)).hi = none ↔ ∀ x ∈ c :: cs, x.hi = none) ∧
      (∀ v, (aggGroup (c :: cs)).hi = some v →
        (∃ x ∈ c :: cs, x.hi = some v) ∧ ∀ x ∈ c :: cs, ∀ w, x.hi = some w → w ≤ v) ∧
      ((aggGroup (c :: cs)).lo = none ↔ ∀ x ∈ c :: cs, x.lo = none) ∧
      (∀ v, (aggGroup (c :: cs)).lo = some v →
        (∃ x ∈ c :: cs, x.lo = some v) ∧ ∀ x ∈ c :: cs, ∀ w, x.lo = some w → v ≤ w) ∧
      (aggGroup (c :: cs)).vol = some (((c :: cs).filterMap Candle.vol).sum) ∧
      ((∀ x ∈ c :: cs, x.vol = none) → (aggGroup (c :: cs)).vol = some 0)) := by
  refine ⟨?_, ?_, ?_, ?_⟩
  · intro f hf
    have hmem := intervalFactor_mem target f hf
    have hf0 : f ≠ 0 := by
      simp only [List.mem_cons, List.not_mem_nil, or_false] at hmem
      rcases hmem with h | h | h | h | h <;> omega
    refine ⟨hmem, ?_, ?_, fun hne => chunkList_getLast f hf0 candles hne⟩
    · rw [aggregate_candles_eq_chunks candles target f hf, List.length_map,
        chunkList_length f hf0]
    · rw [aggregate_candles_eq_chunks candles target f hf, chunkList_eq_windows f hf0,
        List.map_map]
      rfl
  · intro hnone
    by_cases hc : candles = []
    · subst hc
      simp [aggregate_candles]
    · simp [aggregate_candles, hc, hnone]
  · simp [aggregate_candles]
  · intro c cs
    refine ⟨rfl, rfl, ⟨cs.getLastD c, ?_, rfl, rfl⟩, ?_, ?_, ?_, ?_, rfl, ?_⟩
    · simp [List.getLast?_cons]
    · rw [show (aggGroup (c :: cs)).hi = ((c :: cs).filterMap Candle.hi).max? from rfl,
        List.max?_eq_none_iff, List.filterMap_eq_nil_iff]
    · intro v hv
      rw [show (aggGroup (c :: cs)).hi = ((c :: cs).filterMap Candle.hi).max? from rfl,
        max?_rat_eq_some_iff] at hv
      obtain ⟨hmem, hub⟩ := hv
      obtain ⟨x, hx, hxv⟩ := List.mem_filterMap.mp hmem
      refine ⟨⟨x, hx, hxv⟩, fun y hy w hw => ?_⟩
      exact hub w (List.mem_filterMap.mpr ⟨y, hy, hw⟩)
    · rw [show (aggGroup (c :: cs)).lo = ((c :: cs).filterMap Candle.lo).min? from rfl,
        List.min?_eq_none_iff, List.filterMap_eq_nil_iff]
    · intro v hv
      rw [show (aggGroup (c :: cs)).lo = ((c :: cs).filterMap Candle.lo).min? from rfl,
        min?_rat_eq_some_iff] at hv
      obtain ⟨hmem, hlb⟩ := hv
      obtain ⟨x, hx, hxv⟩ := List.mem_filterMap.mp hmem
      refine ⟨⟨x, hx, hxv⟩, fun y hy w hw => ?_⟩
      exact hlb w (List.mem_filterMap.mpr ⟨y, hy, hw⟩)
    · intro hall
      have : (c :: cs).filterMap Candle.vol = [] := List.filterMap_eq_nil_iff.mpr hall
      rw [show (aggGroup (c :: cs)).vol
            = some (((c :: cs).filterMap Candle.vol).sum) from rfl, this]
      rfl

/-- Witness for C2 at a concrete two-candle batch and factor 5. -/
theorem c2_aggregate_spec_witness :
    (aggregate_candles
        [⟨Timestamp.num 0, some 1, some 2, some 3, some 4, some 5, some 6⟩,
         ⟨Timestamp.num 1, some 10, none, some 30, some 40, none, some 60⟩]
        "5minute").length = (2 + 5 - 1) / 5 ∧
    aggregate_candles
        [⟨Timestamp.num 0, some 1, some 2, some 3, some 4, some 5, some 6⟩]
        "1minute"
      = [⟨Timestamp.num 0, some 1, some 2, some 3, some 4, some 5, some 6⟩] :=
  ⟨((c2_aggregate_spec _ "5minute").1 5 rfl).2.1,
   (c2_aggregate_spec _ "1minute").2.1 rfl⟩

/-- C9: if any of `ltp, pl3h, pl3m, pl3l` is null, `calculate_m75_conditions`
returns the record with all six condition/signal fields null and all three
alert fields false, and no error is raised (the function is total). -/
theorem c9_null_inputs (ltp pl3h pl3m pl3l previous_ltp : Option ℚ)
    (h : ltp = none ∨ pl3h = none ∨ pl3m = none ∨ pl3l = none) :
    calculate_m75_conditions ltp pl3h pl3m pl3l previous_ltp = nullM75 := by
  unfold calculate_m75_conditions
  rcases h with h | h | h | h <;> subst h <;> simp [isTruthy]

/-- Witness for C9 at a concrete input. -/
theorem c9_null_inputs_witness :
    calculate_m75_conditions none (some 1) (some 2) (some 3) none = nullM75 :=
  c9_null_inputs none (some 1) (some 2) (some 3) none (Or.inl rfl)

/-- C10: a present value `0` among `ltp, pl3h, pl3m, pl3l` produces the same
all-null/all-false result as a null input, and `calculate_box_strategy_values`
leaves `fcm, br_t, br_r, be_t, be_r` null whenever `fch` or `fcl` equals `0`,
because both guards test Python truthiness rather than `is not None`. -/
theorem c10_zero_behaves_as_null :
    (∀ (ltp pl3h pl3m pl3l previous_ltp : Option ℚ),
      (ltp = some 0 ∨ pl3h = some 0 ∨ pl3m = some 0 ∨ pl3l = some 0) →
      calculate_m75_conditions ltp pl3h pl3m pl3l previous_ltp = nullM75) ∧
    (∀ (fch fcl current_ltp : Option ℚ),
      (fch = some 0 ∨ fcl = some 0) →
      (calculate_box_strategy_values_core fch fcl current_ltp).fcm = none ∧
      (calculate_box_strategy_values_core fch fcl current_ltp).br_t = none ∧
      (calculate_box_strategy_values_core fch fcl current_ltp).br_r = none ∧
      (calculate_box_strategy_values_core fch fcl current_ltp).be_t = none ∧
      (calculate_box_strategy_values_core fch fcl current_ltp).be_r = none) := by
  constructor
  · intro ltp pl3h pl3m pl3l previous_ltp h
    unfold calculate_m75_conditions
    rcases h with h | h | h | h <;> subst h <;> simp [isTruthy]
  · intro fch fcl current_ltp h
    unfold calculate_box_strategy_values_core
    rcases h with h | h <;> subst h <;> simp [isTruthy]

/-- Witness for C10 at concrete inputs. -/
theorem c10_zero_behaves_as_null_witness :
    calculate_m75_conditions (some 0) (some 1) (some 2) (some 3) none = nullM75 ∧
    (calculate_box_strategy_values_core (some 0) (some 5) none).br_t = none :=
  ⟨c10_zero_behaves_as_null.1 (some 0) (some 1) (some 2) (some 3) none (Or.inl rfl),
   (c10_zero_behaves_as_null.2 (some 0) (some 5) none (Or.inl rfl)).2.1⟩

/-- Counterexample to C5 as stated: `ltp = 0` is a non-null value and lies
below `pl3m = 50`, so the claim requires `pl3m_condition = "below"`, but the
truthiness guard returns the all-null record instead. -/
theorem c5_counterexample :
    (0 : ℚ) < 50 ∧
    (calculate_m75_conditions (some 0) (some 100) (some 50) (some 10) none).pl3m_condition
      ≠ some "below" ∧
    calculate_m75_conditions (some 0) (some 100) (some 50) (some 10) none = nullM75 := by
  have hnull : calculate_m75_conditions (some 0) (some 100) (some 50) (some 10) none
      = nullM75 := by
    norm_num [calculate_m75_conditions, isTruthy, nullM75]
  refine ⟨by norm_num, ?_, hnull⟩
  rw [hnull]
  simp [nullM75]

/-- C5 (amended: the four inputs must additionally be nonzero, and a zero
`previousLtp` is treated as absent, because the source tests truthiness):
with a truthy `previousLtp`, a downward crossing of `pl3m` gives
`bearish_break`, an upward crossing `bullish_break`, staying below `below`,
staying above `above`, each with signal `"W"`; with `previousLtp` absent the
condition comes from the current position alone (null on exact equality) and
signal `"W"` accompanies every computed condition; `pl3m_alert` holds exactly
when `|ltp − pl3m|/pl3m ≤ 0.005`, independent of condition and signal. -/
theorem c5_pl3m_conditions (l h m lo : ℚ) (p? : Option ℚ)
    (hl : l ≠ 0) (hh : h ≠ 0) (hm : m ≠ 0) (hlo : lo ≠ 0) :
    (∀ p, p? = some p → p ≠ 0 →
      ((m < p ∧ l ≤ m) →
        (calculate_m75_conditions (some l) (some h) (some m) (some lo) p?).pl3m_condition
            = some "bearish_break" ∧
        (calculate_m75_conditions (some l) (some h) (some m) (some lo) p?).pl3m_signal
            = some "W") ∧
      ((p < m ∧ m ≤ l) →
        (calculate_m75_conditions (some l) (some h) (some m) (some lo) p?).pl3m_condition
            = some "bullish_break" ∧
        (calculate_m75_conditions (some l) (some h) (some m) (some lo) p?).pl3m_signal
            = some "W") ∧
      ((l < m ∧ p < m) →
        (calculate_m75_conditions (some l) (some h) (some m) (some lo) p?).pl3m_condition
            = some "below" ∧
        (calculate_m75_conditions (some l) (some h) (some m) (some lo) p?).pl3m_signal
            = some "W") ∧
      ((m < l ∧ m < p) →
        (calculate_m75_conditions (some l) (some h) (some m) (some lo) p?).pl3m_condition
            = some "above" ∧
        (calculate_m75_conditions (some l) (some h) (some m) (some lo) p?).pl3m_signal
            = some "W")) ∧
    (isTruthy p? = false →
      (calculate_m75_conditions (some l) (some h) (some m) (some lo) p?).pl3m_condition
        = (if l < m then some "below" else if m < l then some "above" else none) ∧
      ((calculate_m75_conditions (some l) (some h) (some m) (some lo) p?).pl3m_condition ≠ none →
       (calculate_m75_conditions (some l) (some h) (some m) (some lo) p?).pl3m_signal
         = some "W")) ∧
    ((calculate_m75_conditions (some l) (some h) (some m) (some lo) p?).pl3m_alert = true
      ↔ |l - m| / m ≤ 5 / 1000) := by
  have hguard :
      (!(isTruthy (some l)) || !(isTruthy (some h)) || !(isTruthy (some m))
        || !(isTruthy (some lo))) = false := by
    simp [isTruthy, hl, hh, hm, hlo]
  refine ⟨?_, ?_, ?_⟩
  · intro p hp hp0
    subst hp
    have ht : isTruthy (some p) = true := by simp [isTruthy, hp0]
    simp only [calculate_m75_conditions, hguard, Bool.false_eq_true, if_false, ht, if_true,
      Option.getD_some]
    refine ⟨fun hc => ?_, fun hc => ?_, fun hc => ?_, fun hc => ?_⟩
    · rw [if_pos hc]
      exact ⟨rfl, rfl⟩
    · rw [if_neg (by rintro ⟨a, _⟩; exact absurd a (by linarith [hc.1])), if_pos hc]
      exact ⟨rfl, rfl⟩
    · rw [if_neg (by rintro ⟨a, _⟩; exact absurd a (by linarith [hc.2])),
        if_neg (by rintro ⟨_, b⟩; exact absurd b (by linarith [hc.1])), if_pos hc]
      exact ⟨rfl, rfl⟩
    · rw [if_neg (by rintro ⟨_, b⟩; exact absurd b (by linarith [hc.1])),
        if_neg (by rintro ⟨a, _⟩; exact absurd a (by linarith [hc.2])),
        if_neg (by rintro ⟨a, _⟩; exact absurd a (by linarith [hc.1])), if_pos hc]
      exact ⟨rfl, rfl⟩
  · intro hpf
    simp only [calculate_m75_conditions, hguard, Bool.false_eq_true, if_false, hpf,
      Option.getD_some]
    exact ⟨trivial, fun _ => trivial⟩
  · simp only [calculate_m75_conditions, hguard, Bool.false_eq_true, if_false,
      Option.getD_some, decide_eq_true_eq]

/-- Witness for C5: a concrete downward crossing of `pl3m`. -/
theorem c5_pl3m_conditions_witness :
    (calculate_m75_conditions (some 40) (some 100) (some 50) (some 10)
        (some 60)).pl3m_condition = some "bearish_break" :=
  (((c5_pl3m_conditions 40 100 50 10 (some 60) (by norm_num) (by norm_num) (by norm_num)
      (by norm_num)).1 60 rfl (by norm_num)).1 ⟨by norm_num, by norm_num⟩).1

/-- Counterexample to C6 as stated: the claim's own boundary instance fails.
At `ltp = 100.4, pl3h = 100` the first branch `ltp > pl3h` fires, so the code
returns `pl3h_condition = "bullish"`, `pl3h_signal = "B"`, `pl3h_alert =
false` — not the claimed `pl3h_alert = true` with null condition (the alert
branch is only reachable when `ltp ≤ pl3h`). -/
theorem c6_counterexample :
    ¬ ((calculate_m75_conditions (some (100.4 : ℚ)) (some 100) (some 60) (some 20)
          none).pl3h_alert = true ∧
       (calculate_m75_conditions (some (100.4 : ℚ)) (some 100) (some 60) (some 20)
          none).pl3h_condition = none) ∧
    (calculate_m75_conditions (some (100.4 : ℚ)) (some 100) (some 60) (some 20)
        none).pl3h_condition = some "bullish" ∧
    (calculate_m75_conditions (some (100.4 : ℚ)) (some 100) (some 60) (some 20)
        none).pl3h_signal = some "B" ∧
    (calculate_m75_conditions (some (100.4 : ℚ)) (some 100) (some 60) (some 20)
        none).pl3h_alert = false := by
  norm_num [calculate_m75_conditions, isTruthy]

/-- C6 (amended: the four inputs must additionally be nonzero because the
source tests truthiness, and the first boundary instance is corrected —
`ltp = 100.4 > pl3h = 100` takes the bullish branch, so the alert requires
`ltp ≤ pl3h`): `pl3h_condition = "bullish"` with signal `"B"` exactly when
`ltp > pl3h`, otherwise condition/signal stay null and `pl3h_alert` holds
exactly when `|ltp − pl3h|/pl3h ≤ 0.005`; symmetrically `pl3l_condition =
"bearish"` with signal `"BO-S"` exactly when `ltp < pl3l`, otherwise
`pl3l_alert` holds exactly when `|ltp − pl3l|/pl3l ≤ 0.005`; the corrected
instances: `ltp = 100.4, pl3h = 100` gives `bullish`/`B` with no alert,
`ltp = 99.6, pl3h = 100` gives a null condition with `pl3h_alert = true`,
and `ltp = 101, pl3h = 100` gives `bullish`/`B`. -/
theorem c6_pl3h_pl3l_conditions (l h m lo : ℚ) (p? : Option ℚ)
    (hl : l ≠ 0) (hh : h ≠ 0) (hm : m ≠ 0) (hlo : lo ≠ 0) :
    ((h < l →
      (calculate_m75_conditions (some l) (some h) (some m) (some lo) p?).pl3h_condition
          = some "bullish" ∧
      (calculate_m75_conditions (some l) (some h) (some m) (some lo) p?).pl3h_signal
          = some "B" ∧
      (calculate_m75_conditions (some l) (some h) (some m) (some lo) p?).pl3h_alert = false) ∧
     (¬ h < l →
      (calculate_m75_conditions (some l) (some h) (some m) (some lo) p?).pl3h_condition
          = none ∧
      (calculate_m75_conditions (some l) (some h) (some m) (some lo) p?).pl3h_signal = none ∧
      ((calculate_m75_conditions (some l) (some h) (some m) (some lo) p?).pl3h_alert = true
        ↔ |l - h| / h ≤ 5 / 1000))) ∧
    ((l < lo →
      (calculate_m75_conditions (some l) (some h) (some m) (some lo) p?).pl3l_condition
          = some "bearish" ∧
      (calculate_m75_conditions (some l) (some h) (some m) (some lo) p?).pl3l_signal
          = some "BO-S" ∧
      (calculate_m75_conditions (some l) (some h) (some m) (some lo) p?).pl3l_alert = false) ∧
     (¬ l < lo →
      (calculate_m75_conditions (some l) (some h) (some m) (some lo) p?).pl3l_condition
          = none ∧
      (calculate_m75_conditions (some l) (some h) (some m) (some lo) p?).pl3l_signal = none ∧
      ((calculate_m75_conditions (some l) (some h) (some m) (some lo) p?).pl3l_alert = true
        ↔ |l - lo| / lo ≤ 5 / 1000))) ∧
    ((calculate_m75_conditions (some (100.4 : ℚ)) (some 100) (some 60) (some 20)
        none).pl3h_condition = some "bullish" ∧
     (calculate_m75_conditions (some (100.4 : ℚ)) (some 100) (some 60) (some 20)
        none).pl3h_signal = some "B" ∧
     (calculate_m75_conditions (some (100.4 : ℚ)) (some 100) (some 60) (some 20)
        none).pl3h_alert = false ∧
     (calculate_m75_conditions (some (99.6 : ℚ)) (some 100) (some 60) (some 20)
        none).pl3h_condition = none ∧
     (calculate_m75_conditions (some (99.6 : ℚ)) (some 100) (some 60) (some 20)
        none).pl3h_alert = true ∧
     (calculate_m75_conditions (some 101) (some 100) (some 60) (some 20)
        none).pl3h_condition = some "bullish" ∧
     (calculate_m75_conditions (some 101) (some 100) (some 60) (some 20)
        none).pl3h_signal = some "B") := by
  have hguard :
      (!(isTruthy (some l)) || !(isTruthy (some h)) || !(isTruthy (some m))
        || !(isTruthy (some lo))) = false := by
    simp [isTruthy, hl, hh, hm, hlo]
  refine ⟨⟨?_, ?_⟩, ⟨?_, ?_⟩, ?_⟩
  · intro hc
    simp only [calculate_m75_conditions, hguard, Bool.false_eq_true, if_false,
      Option.getD_some]
    rw [if_pos hc]
    exact ⟨rfl, rfl, rfl⟩
  · intro hc
    simp only [calculate_m75_conditions, hguard, Bool.false_eq_true, if_false,
      Option.getD_some]
    rw [if_neg hc]
    exact ⟨rfl, rfl, by simp⟩
  · intro hc
    simp only [calculate_m75_conditions, hguard, Bool.false_eq_true, if_false,
      Option.getD_some]
    rw [if_pos hc]
    exact ⟨rfl, rfl, rfl⟩
  · intro hc
    simp only [calculate_m75_conditions, hguard, Bool.false_eq_true, if_false,
      Option.getD_some]
    rw [if_neg hc]
    exact ⟨rfl, rfl, by simp⟩
  · refine ⟨?_, ?_, ?_, ?_, ?_, ?_, ?_⟩ <;>
      norm_num [calculate_m75_conditions, isTruthy, abs_of_nonneg, abs_of_nonpos]

/-- Witness for C6: a concrete break above `pl3h`. -/
theorem c6_pl3h_pl3l_conditions_witness :
    (calculate_m75_conditions (some 120) (some 100) (some 60) (some 20)
        none).pl3h_condition = some "bullish" :=
  ((c6_pl3h_pl3l_conditions 120 100 60 20 none (by norm_num) (by norm_num) (by norm_num)
      (by norm_num)).1.1 (by norm_num)).1

/-- C7: with truthy `fch`, `fcl` and `dist = fch − fcl`, the box strategy
returns (2-decimal-rounded, per the source's output rounding) `fcm =
(fch+fcl)/2`, `br_t = fch + 2·dist`, `br_r = fcl + 0.75·(br_t − fcl)`,
`be_t = fcl − 2·dist`, `be_r = fch − 0.75·(fch − be_t)`; the result does not
depend on the current price; the claimed instance `fch = 110, fcl = 100`
yields `130, 122.5, 80, 87.5`; and all derived fields are null when `fch` or
`fcl` is unavailable. -/
theorem c7_box_values (h l : ℚ) (hh : h ≠ 0) (hl : l ≠ 0) (p q : Option ℚ) :
    (calculate_box_strategy_values_core (some h) (some l) p
      = calculate_box_strategy_values_core (some h) (some l) q) ∧
    (calculate_box_strategy_values_core (some h) (some l) p).fcm
      = some (round2 ((h + l) / 2)) ∧
    (calculate_box_strategy_values_core (some h) (some l) p).br_t
      = some (round2 (h + 2 * (h - l))) ∧
    (calculate_box_strategy_values_core (some h) (some l) p).br_r
      = some (round2 (l + (3 / 4) * ((h + 2 * (h - l)) - l))) ∧
    (calculate_box_strategy_values_core (some h) (some l) p).be_t
      = some (round2 (l - 2 * (h - l))) ∧
    (calculate_box_strategy_values_core (some h) (some l) p).be_r
      = some (round2 (h - (3 / 4) * (h - (l - 2 * (h - l))))) ∧
    (∀ (a b c : Option ℚ), ¬ (isTruthy a = true ∧ isTruthy b = true) →
      (calculate_box_strategy_values_core a b c).fcm = none ∧
      (calculate_box_strategy_values_core a b c).br_t = none ∧
      (calculate_box_strategy_values_core a b c).br_r = none ∧
      (calculate_box_strategy_values_core a b c).be_t = none ∧
      (calculate_box_strategy_values_core a b c).be_r = none) ∧
    (calculate_box_strategy_values_core (some 110) (some 100) none
      = ⟨some 110, some 100, some 105, some 130, some (245 / 2), some 80,
         some (175 / 2)⟩) := by
  have hguard : (isTruthy (some h) && isTruthy (some l)) = true := by
    simp [isTruthy, hh, hl]
  refine ⟨?_, ?_, ?_, ?_, ?_, ?_, ?_,
    by norm_num [calculate_box_strategy_values_core, isTruthy, round2, roundHalfEven]⟩
  · simp only [calculate_box_strategy_values_core, hguard, if_true]
  · simp only [calculate_box_strategy_values_core, hguard, if_true, Option.getD_some]
  · simp only [calculate_box_strategy_values_core, hguard, if_true, Option.getD_some]
    congr 1
    congr 1
    ring
  · simp only [calculate_box_strategy_values_core, hguard, if_true, Option.getD_some]
    congr 1
    congr 1
    ring
  · simp only [calculate_box_strategy_values_core, hguard, if_true, Option.getD_some]
    congr 1
    congr 1
    ring
  · simp only [calculate_box_strategy_values_core, hguard, if_true, Option.getD_some]
    congr 1
    congr 1
    ring
  · intro a b c hab
    have : (isTruthy a && isTruthy b) = false := by
      rcases Bool.eq_false_or_eq_true (isTruthy a) with ha | ha <;>
        rcases Bool.eq_false_or_eq_true (isTruthy b) with hb | hb <;>
          simp [ha, hb] at hab ⊢
    simp only [calculate_box_strategy_values_core, this, Bool.false_eq_true, if_false]
    refine ⟨?_, ?_, ?_, ?_, ?_⟩ <;> trivial

/-- Witness for C7 at `fch = 110, fcl = 100`. -/
theorem c7_box_values_witness :
    (calculate_box_strategy_values_core (some 110) (some 100) none).br_t
      = some (round2 (110 + 2 * (110 - 100))) :=
  (c7_box_values 110 100 (by norm_num) (by norm_num) none none).2.2.1

/-- Counterexample to C1 as stated: in the 75-minute PL3 pipeline the batch
is aggregated positionally *before* any grouping by trading day, so a window
can combine candles of two trading days.  Concretely, one candle of
2024-01-08 followed by one of 2024-01-09 lands in a single aggregation
window, and the emitted candle is keyed to 2024-01-08 while containing a
2024-01-09 source candle. -/
theorem c1_counterexample :
    pl3AggWindows [cJan8, cJan9] = [[cJan8, cJan9]] ∧
    aggregate_candles (sortByTs [cJan8, cJan9]) "75minute" = [aggGroup [cJan8, cJan9]] ∧
    pyDateKey cJan8.ts = some ⟨2024, 1, 8⟩ ∧
    pyDateKey cJan9.ts = some ⟨2024, 1, 9⟩ ∧
    pyDateKey (aggGroup [cJan8, cJan9]).ts = some ⟨2024, 1, 8⟩ ∧
    (⟨2024, 1, 8⟩ : Date) ≠ ⟨2024, 1, 9⟩ :=
  ⟨by decide, rfl, by decide, by decide, by decide, by decide⟩

/-- C1 (amended): with interval `"75minute"` the PL3 computation aggregates
the whole sorted multi-day batch into positional windows of at most 75
candles *before* grouping by trading day; the windows partition the sorted
batch in order, every emitted candle inherits the timestamp (hence the
trading-day key) of the first candle of its window, and the aggregation
stage is exactly `aggregate_candles` over these windows — so an emitted
75-minute candle may combine source candles of two different trading days
when a day's candle count is not a multiple of 75. -/
theorem c1_aggregation_before_grouping (candles : List Candle) :
    (pl3AggWindows candles).flatten = sortByTs candles ∧
    (∀ g ∈ pl3AggWindows candles, g ≠ [] ∧ g.length ≤ 75) ∧
    (∀ g, g ∈ pl3AggWindows candles → ∀ c rest, g = c :: rest → (aggGroup g).ts = c.ts) ∧
    aggregate_candles (sortByTs candles) "75minute" = (pl3AggWindows candles).map aggGroup := by
  refine ⟨chunkList_join 75 (by norm_num) _, chunkList_windows_shape 75 (by norm_num) _,
    ?_, aggregate_candles_eq_chunks _ "75minute" 75 rfl⟩
  intro g _ c rest hc
  subst hc
  rfl

/-- Witness for C1's amended theorem at the concrete two-day batch. -/
theorem c1_aggregation_before_grouping_witness :
    (pl3AggWindows [cJan8, cJan9]).flatten = sortByTs [cJan8, cJan9] ∧
    (aggGroup [cJan8, cJan9]).ts = cJan8.ts :=
  ⟨(c1_aggregation_before_grouping [cJan8, cJan9]).1,
   (c1_aggregation_before_grouping [cJan8, cJan9]).2.2.1 [cJan8, cJan9] (by decide)
     cJan8 [cJan9] rfl⟩

theorem sortDatesDesc_sorted (dates : List Date) :
    List.Sorted dge (sortDatesDesc dates) :=
  List.sorted_insertionSort dge dates

theorem sortDatesDesc_perm (dates : List Date) :
    List.Perm (sortDatesDesc dates) dates :=
  List.perm_insertionSort dge dates

theorem find_first_lt_is_max (l : List Date) (T : Int) (hs : List.Sorted dge l) (m : Date)
    (hm : l.find? (fun d => decide (d.toDays < T)) = some m) :
    m ∈ l ∧ m.toDays < T ∧ ∀ d ∈ l, d.toDays < T → d.toDays ≤ m.toDays := by
  induction l with
  | nil => simp at hm
  | cons a t ih =>
    by_cases ha : a.toDays < T
    · rw [List.find?_cons_of_pos _ (by simpa using ha), Option.some.injEq] at hm
      subst hm
      refine ⟨List.mem_cons_self a t, ha, ?_⟩
      intro d hd _
      rcases List.mem_cons.mp hd with rfl | hd'
      · exact le_rfl
      · exact (List.sorted_cons.mp hs).1 d hd'
    · rw [List.find?_cons_of_neg _ (by simpa using ha)] at hm
      obtain ⟨hmem, hlt, hmax⟩ := ih (List.sorted_cons.mp hs).2 hm
      refine ⟨List.mem_cons_of_mem a hmem, hlt, ?_⟩
      intro d hd hdT
      rcases List.mem_cons.mp hd with rfl | hd'
      · exact absurd hdT ha
      · exact hmax d hd' hdT

theorem pl3_core_null_of_no_prev (candles : List Candle) (interval : String) (today : Date)
    (h : selectPreviousDay (pl3Dates candles interval) today = none) :
    get_previous_day_high_low_core candles interval today = nullPl3 := by
  unfold get_previous_day_high_low_core
  by_cases hc : candles = []
  · simp [hc]
  · by_cases hm : tsMixed candles = true
    · simp [hc, hm]
    · simp [hc, hm, h]

/-- C4: the previous-trading-day selector returns the maximum date strictly
before `today` when one exists; otherwise (per the source's fallback chain)
it takes the most recent date if that date is before `today` (a vacuous
branch in that situation), else the second-most-recent date by descending
order when at least two dates exist, else nothing; the claim's concrete
instance holds; and when the selector yields nothing the PL3 computation
returns the all-null result rather than raising. -/
theorem c4_previous_day_selection (dates : List Date) (today : Date)
    (hne : dates ≠ []) (hnd : dates.Nodup) :
    ((∃ d ∈ dates, d.toDays < today.toDays) →
      ∃ m, selectPreviousDay dates today = some m ∧ m ∈ dates ∧
        m.toDays < today.toDays ∧
        ∀ d ∈ dates, d.toDays < today.toDays → d.toDays ≤ m.toDays) ∧
    ((¬ ∃ d ∈ dates, d.toDays < today.toDays) →
      ∀ d0 rest, sortDatesDesc dates = d0 :: rest →
        (d0.toDays < today.toDays → selectPreviousDay dates today = some d0) ∧
        (¬ d0.toDays < today.toDays →
          (∀ d1 rest2, rest = d1 :: rest2 → selectPreviousDay dates today = some d1) ∧
          (rest = [] → selectPreviousDay dates today = none))) ∧
    (selectPreviousDay [⟨2024, 1, 8⟩, ⟨2024, 1, 9⟩, ⟨2024, 1, 10⟩] ⟨2024, 1, 10⟩
      = some ⟨2024, 1, 9⟩) ∧
    (∀ (cs : List Candle) (interval : String) (td : Date),
      selectPreviousDay (pl3Dates cs interval) td = none →
      get_previous_day_high_low_core cs interval td = nullPl3) := by
  refine ⟨?_, ?_, by decide, fun cs interval td h => pl3_core_null_of_no_prev cs interval td h⟩
  · rintro ⟨d, hd, hdlt⟩
    rcases hfind : (sortDatesDesc dates).find? (fun x => decide (x.toDays < today.toDays)) with
      _ | m
    · exfalso
      have := List.find?_eq_none.mp hfind d ((sortDatesDesc_perm dates).mem_iff.mpr hd)
      simp [hdlt] at this
    · obtain ⟨hmem, hlt, hmax⟩ :=
        find_first_lt_is_max (sortDatesDesc dates) today.toDays
          (sortDatesDesc_sorted dates) m hfind
      refine ⟨m, ?_, (sortDatesDesc_perm dates).mem_iff.mp hmem, hlt, ?_⟩
      · simp only [selectPreviousDay]
        rw [hfind]
      · intro x hx hxlt
        exact hmax x ((sortDatesDesc_perm dates).mem_iff.mpr hx) hxlt
  · intro hno d0 rest hsort
    have hfind : (sortDatesDesc dates).find? (fun x => decide (x.toDays < today.toDays))
        = none := by
      rw [List.find?_eq_none]
      intro x hx
      simp only [decide_eq_true_eq]
      exact fun hlt => hno ⟨x, (sortDatesDesc_perm dates).mem_iff.mp hx, hlt⟩
    constructor
    · intro h0
      simp only [selectPreviousDay]
      rw [hfind, hsort]
      simp [h0]
    · intro h0
      constructor
      · intro d1 rest2 h1
        simp only [selectPreviousDay]
        rw [hfind, hsort, h1]
        simp [h0]
      · intro h1
        simp only [selectPreviousDay]
        rw [hfind, hsort, h1]
        simp [h0]

/-- Witness for C4 at the claim's instance dates. -/
theorem c4_previous_day_selection_witness :
    selectPreviousDay [⟨2024, 1, 8⟩, ⟨2024, 1, 9⟩, ⟨2024, 1, 10⟩] ⟨2024, 1, 10⟩
      = some ⟨2024, 1, 9⟩ :=
  (c4_previous_day_selection [⟨2024, 1, 8⟩, ⟨2024, 1, 9⟩, ⟨2024, 1, 10⟩] ⟨2024, 1, 10⟩
    (by decide) (by decide)).2.2.1

/-- Counterexample to C3 as stated: the source's branch (b) test is
`'+' in ts and '05:30' in ts`, two independent substring checks, not a check
for an explicit `"+05:30"` offset.  The UTC string
`"2025-11-07T23:05:30+00:00"` contains `'+'` and contains `"05:30"` inside
its seconds field, so the code takes branch (b) (strip `"+05:30"` — a no-op —
and use the wall date, 2025-11-07), while the claim's precedence sends it to
branch (c) (parse as UTC, shift +5:30, giving 2025-11-08). -/
theorem c3_counterexample :
    pyDateKey (Timestamp.str "2025-11-07T23:05:30+00:00") = some ⟨2025, 11, 7⟩ ∧
    specDateKey (Timestamp.str "2025-11-07T23:05:30+00:00") = some ⟨2025, 11, 8⟩ ∧
    pyDateKey (Timestamp.str "2025-11-07T23:05:30+00:00")
      ≠ specDateKey (Timestamp.str "2025-11-07T23:05:30+00:00") :=
  ⟨by decide, by decide, by decide⟩

/-- C3 (amended): the grouping key is computed with this precedence — (a) a
numeric timestamp is epoch milliseconds UTC shifted by +5:30; (b) a string
containing a `'+'` character and the substring `"05:30"` *anywhere* has every
literal `"+05:30"` removed and the wall time of the parse used directly; (c)
otherwise a string containing `'Z'` anywhere or `"+00:00"` has every `'Z'`
replaced by `"+00:00"`, is parsed, and its wall time is shifted by +5:30; (d)
any other string is parsed naively with no shift.  A candle is in the group
of key `k` exactly when its timestamp parses to `k` (so an unparseable
candle is skipped and appears in no group, without aborting the batch). -/
theorem c3_timestamp_parsing (ms : ℚ) (s : String) (candles : List Candle)
    (c : Candle) (k : Date) :
    pyDateKey (Timestamp.num ms)
      = some (Date.ofDays ⌊(ms / 1000 + 19800) / 86400⌋) ∧
    (containsChar '+' (chars s) = true → containsSub (chars "05:30") (chars s) = true →
      pyDateKey (Timestamp.str s)
        = (parseIso (replaceAll (chars "+05:30") [] (chars s))).map (fun p => p.1.date)) ∧
    (¬(containsChar '+' (chars s) = true ∧ containsSub (chars "05:30") (chars s) = true) →
      (containsChar 'Z' (chars s) = true ∨ containsSub (chars "+00:00") (chars s) = true) →
      pyDateKey (Timestamp.str s)
        = (parseIso (replaceAll [ 'Z'] (chars "+00:00") (chars s))).map
            (fun p => p.1.dateAfterAdd 19800)) ∧
    (¬(containsChar '+' (chars s) = true ∧ containsSub (chars "05:30") (chars s) = true) →
      ¬(containsChar 'Z' (chars s) = true ∨ containsSub (chars "+00:00") (chars s) = true) →
      pyDateKey (Timestamp.str s) = (parseIso (chars s)).map (fun p => p.1.date)) ∧
    (c ∈ groupByDate candles k ↔ c ∈ candles ∧ pyDateKey c.ts = some k) ∧
    (pyDateKey c.ts = none → ∀ k2, c ∉ groupByDate candles k2) := by
  refine ⟨rfl, ?_, ?_, ?_, ?_, ?_⟩
  · intro h1 h2
    simp [pyDateKey, h1, h2]
  · intro hb hcz
    have hb2 : (containsChar '+' (chars s) && containsSub (chars "05:30") (chars s))
        = false := by
      rcases Bool.eq_false_or_eq_true (containsChar '+' (chars s)) with h | h <;>
        rcases Bool.eq_false_or_eq_true (containsSub (chars "05:30") (chars s)) with h' | h' <;>
          simp [h, h'] at hb ⊢
    have hcz2 : (containsChar 'Z' (chars s) || containsSub (chars "+00:00") (chars s))
        = true := by
      rcases hcz with h | h <;> simp [h]
    simp [pyDateKey, hb2, hcz2]
  · intro hb hcz
    have hb2 : (containsChar '+' (chars s) && containsSub (chars "05:30") (chars s))
        = false := by
      rcases Bool.eq_false_or_eq_true (containsChar '+' (chars s)) with h | h <;>
        rcases Bool.eq_false_or_eq_true (containsSub (chars "05:30") (chars s)) with h' | h' <;>
          simp [h, h'] at hb ⊢
    have hcz2 : (containsChar 'Z' (chars s) || containsSub (chars "+00:00") (chars s))
        = false := by
      rcases Bool.eq_false_or_eq_true (containsChar 'Z' (chars s)) with h | h <;>
        rcases Bool.eq_false_or_eq_true (containsSub (chars "+00:00") (chars s)) with h' | h' <;>
          simp [h, h'] at hcz ⊢
    simp [pyDateKey, hb2, hcz2]
  · simp [groupByDate, List.mem_filter]
  · intro hnone k2
    simp [groupByDate, List.mem_filter, hnone]

/-- Witness for C3's amended theorem: branch (b) on a canonical IST string,
and the grouping membership at a concrete batch. -/
theorem c3_timestamp_parsing_witness :
    pyDateKey (Timestamp.str "2024-01-09T09:15:00+05:30")
      = (parseIso (replaceAll (chars "+05:30") []
          (chars "2024-01-09T09:15:00+05:30"))).map (fun p => p.1.date) ∧
    (cJan8 ∈ groupByDate [cJan8, cJan9] ⟨2024, 1, 8⟩ ↔
      cJan8 ∈ [cJan8, cJan9] ∧ pyDateKey cJan8.ts = some ⟨2024, 1, 8⟩) :=
  ⟨(c3_timestamp_parsing 0 "2024-01-09T09:15:00+05:30" [cJan8, cJan9] cJan8
      ⟨2024, 1, 8⟩).2.1 (by decide) (by decide),
   (c3_timestamp_parsing 0 "2024-01-09T09:15:00+05:30" [cJan8, cJan9] cJan8
      ⟨2024, 1, 8⟩).2.2.2.2.1⟩

/-- Counterexample to C8 as stated: at a previous-day candle with high 1.012
and low 1.0 the code returns `pl3h = 1.01`, `pl3l = 1`, `pl3m = round2(1.006)
= 1.01`, while the claim's equation over the returned (rounded) values gives
`round2((1.01 + 1)/2) = round2(1.005) = 1.00 ≠ 1.01`. -/
theorem c8_counterexample :
    get_previous_day_high_low_core
        [⟨Timestamp.str "2024-01-09T09:15:00+05:30", some 1, some (1.012 : ℚ), some 1,
          some 1, some 0, some 0⟩] "75minute" ⟨2024, 1, 10⟩
      = ⟨some (101 / 100), some 1, some (101 / 100)⟩ ∧
    round2 ((101 / 100 + 1) / 2) = 1 ∧
    (101 / 100 : ℚ) ≠ 1 := by
  refine ⟨?_, by norm_num [round2, roundHalfEven], by norm_num⟩
  have h1 : get_previous_day_high_low_core
      [⟨Timestamp.str "2024-01-09T09:15:00+05:30", some 1, some (1.012 : ℚ), some 1,
        some 1, some 0, some 0⟩] "75minute" ⟨2024, 1, 10⟩
    = ⟨some (round2 (1.012 : ℚ)), some (round2 (1 : ℚ)),
       some (round2 (((1.012 : ℚ) + 1) / 2))⟩ := rfl
  rw [h1]
  norm_num [round2, roundHalfEven]

/-- C8 (amended): the returned `pl3m` is the 2-decimal rounding of the exact
midpoint of the *unrounded* extremes, of which the returned `pl3h` and `pl3l`
are the 2-decimal roundings; every non-null PL3 result has this shape (the
claim's equation over the already-rounded `pl3h`, `pl3l` holds only up to the
rounding of the midpoint). -/
theorem c8_pl3m_rounding (candles : List Candle) (interval : String) (today : Date) :
    get_previous_day_high_low_core candles interval today = nullPl3 ∨
    ∃ H L, get_previous_day_high_low_core candles interval today
      = ⟨some (round2 H), some (round2 L), some (round2 ((H + L) / 2))⟩ := by
  unfold get_previous_day_high_low_core
  by_cases hc : candles = []
  · left
    simp [hc]
  · by_cases hm : tsMixed candles = true
    · left
      simp [hc, hm]
    · rcases hsel : selectPreviousDay (pl3Dates candles interval) today with _ | d
      · left
        simp [hc, hm, hsel]
      · simp only [hc, hm, hsel, Bool.false_eq_true, if_false]
        split_ifs with h1 h2
        · left
          rfl
        · right
          exact ⟨_, _, rfl⟩
        · left
          rfl

end App
